import Mathlib

/-!
Verification development for the telegram-car-bot repository (src/bot.py).

The bot keeps an append-only ledger of car take/return events in a spreadsheet
worksheet whose rows are (Timestamp, Driver Name, Car Plate, Action) with
Action either the string "out" (acquire) or "in" (release).  The handlers
re-read all rows, optionally sort them by timestamp, fold them into a
last-action-per-plate dictionary and validate commands against that fold.

This file shallowly embeds those handlers:
* `Row` models one ledger row.  Timestamps are stored as strings in the
  format "%Y-%m-%d %H:%M", for which lexicographic string order coincides
  with chronological order; we model them as `Nat` with its linear order.
* Python's stable `list.sort(key=...)` is modelled by `List.insertionSort`
  on the timestamp order (insertion sort in Mathlib inserts before the first
  element that is not strictly smaller, which is exactly Python's stability:
  ties keep storage order).
* Python dicts built by repeated assignment are modelled by association
  lists with `upsert` (insertion-ordered keys, in-place value update).
-/

namespace CarBot

/-- One ledger row of the Log worksheet: (Timestamp, Driver Name, Car Plate,
Action), as read by `sheet_log.get_all_records()` in src/bot.py. -/
structure Row where
  ts : Nat
  driver : String
  plate : String
  action : String
deriving DecidableEq, Repr

/-- Python `str(x).strip().upper()` as used on plates throughout src/bot.py
(e.g. `status_menu` line 328, `text_handler` line 751): drop whitespace at
both ends, then uppercase every character. -/
def normalizePlate (s : String) : String :=
  String.mk ((((s.data.dropWhile Char.isWhitespace).reverse.dropWhile
    Char.isWhitespace).reverse).map Char.toUpper)

/-- Comparison key of `logs.sort(key=lambda x: x["Timestamp"])`. -/
def tsLe (a b : Row) : Prop := a.ts ≤ b.ts

instance : DecidableRel tsLe := fun a b => Nat.decLe a.ts b.ts

instance : IsTotal Row tsLe := ⟨fun a b => Nat.le_total a.ts b.ts⟩

instance : IsTrans Row tsLe := ⟨fun _ _ _ h1 h2 => Nat.le_trans h1 h2⟩

/-- Strict timestamp order, used to identify sorted results when all
timestamps are distinct. -/
def tsLt (a b : Row) : Prop := a.ts < b.ts

instance : IsAntisymm Row tsLt :=
  ⟨fun _ _ h1 h2 => absurd h2 (Nat.lt_asymm h1)⟩

/-- Python's stable `logs.sort(key=lambda x: x["Timestamp"])`
(src/bot.py lines 324, 377, 872): sort ascending by timestamp, ties kept in
storage order.  `List.insertionSort` with a non-strict key order is stable in
exactly this sense. -/
def sortByTs (l : List Row) : List Row := List.insertionSort tsLe l

/-- Python dict assignment `d[k] = v`: replace the value at the first
occurrence of the key, keeping its position, else append the pair. -/
def upsert (k : String) (v : α) : List (String × α) → List (String × α)
  | [] => [(k, v)]
  | kv :: rest => if kv.1 = k then (k, v) :: rest else kv :: upsert k v rest

/-- A Python dict comprehension over ledger rows, e.g.
`{r["Car Plate"]: r["Action"] for r in logs}` (src/bot.py lines 378, 402,
873): fold the rows left to right, each row upserting key `f r` with value
`g r`.  Key order is first-occurrence order, values are last-wins. -/
def pyDict (f : Row → String) (g : Row → α) (l : List Row) : List (String × α) :=
  l.foldl (fun acc r => upsert (f r) (g r) acc) []

/-- The value of the LAST row of `l` whose key `f r` equals `k` (the value a
Python dict ends up holding for key `k`), `none` if no row matches. -/
def lastVal (f : Row → String) (g : Row → α) (k : String) (l : List Row) : Option α :=
  l.foldl (fun acc r => if f r = k then some (g r) else acc) none

/-- Python `d.get(k)` on an insertion-ordered association list. -/
def alookup (k : String) : List (String × α) → Option α
  | [] => none
  | kv :: rest => if kv.1 = k then some kv.2 else alookup k rest

/-- First-some choice, used to state fold lemmas. -/
def orD (o : Option α) (d : Option α) : Option α :=
  match o with
  | some v => some v
  | none => d

/-! ## Derived projections the claims talk about -/

/-- The most-recent-by-timestamp (ties broken by storage order) ledger row
whose stored plate equals the normalized query plate, i.e. the entry the
spec's projection invariant refers to. -/
def mostRecentEntry (rows : List Row) (plate : String) : Option Row :=
  lastVal Row.plate (fun r => r) (normalizePlate plate) (sortByTs rows)

/-- The action of the vehicle's most-recent-by-timestamp ledger row:
`some "out"` means the vehicle is projected as held. -/
def mostRecentAction (rows : List Row) (plate : String) : Option String :=
  lastVal Row.plate Row.action (normalizePlate plate) (sortByTs rows)

/-- The projected holder of a vehicle: the driver of its
most-recent-by-timestamp entry when that entry is an acquire ("out"),
otherwise nobody. -/
def mostRecentHolder (rows : List Row) (plate : String) : Option String :=
  match mostRecentEntry rows plate with
  | some r => if r.action = "out" then some r.driver else none
  | none => none

/-! ## status_menu (src/bot.py lines 321-342): sorted, normalized projection -/

/-- The `last` dict of `status_menu`: sort the log rows by timestamp, then
fold `last[str(plate).strip().upper()] = action`. -/
def statusDict (rows : List Row) : List (String × String) :=
  pyDict (fun r => normalizePlate r.plate) Row.action (sortByTs rows)

/-- `status_menu`'s per-car state: `last.get(normalized_car, "✅ Available")`. -/
def statusState (rows : List Row) (car : String) : String :=
  (alookup (normalizePlate car) (statusDict rows)).getD "✅ Available"

/-- `status_menu` renders a car as held (label "❌ Out ...") exactly when its
state string equals "out". -/
def statusHeld (rows : List Row) (car : String) : Bool :=
  statusState rows car == "out"

/-! ## return_car_menu (src/bot.py lines 397-408): UNSORTED projection -/

/-- The `last` dict of `return_car_menu`: `{r["Car Plate"]: r for r in logs}`
built over the rows in STORAGE order (`return_car_menu` does not sort), with
raw un-normalized plates as keys. -/
def returnDict (rows : List Row) : List (String × Row) :=
  pyDict Row.plate (fun r => r) rows

/-- The cars `return_car_menu` offers the user to return:
`[cp for cp, rec in last.items() if rec["Action"] == "out" and
rec["Driver Name"] == user]`. -/
def returnUserCars (rows : List Row) (user : String) : List String :=
  ((returnDict rows).filter
    (fun kv => kv.2.action == "out" && kv.2.driver == user)).map Prod.fst

/-! ## on_car_action (src/bot.py lines 857-912): the command processor -/

/-- Result of a take/return command, following the error taxonomy of the
spec.  The code itself only ever reports the first four; `notHolder`
(the spec's `NotHolder`) is included so that its absence can be stated. -/
inductive ActionResult
  | tookOk (ts : Nat)
  | returnedOk (ts : Nat)
  | alreadyHolding (plate : String)
  | vehicleUnavailable
  | notHolder
deriving DecidableEq, Repr

/-- Index of a key among the keys of an association list (Python
`list(last_action.keys()).index(cp)`); keys of a dict are unique, so for a
key present this is its position. -/
def keyIndex (k : String) : List (String × α) → Nat
  | [] => 0
  | kv :: rest => if kv.1 = k then 0 else keyIndex k rest + 1

/-- Padding row for list indexing (`logs[i]` never goes out of range here
because a dict over `logs` has at most `logs.length` keys). -/
def padRow : Row := ⟨0, "", "", ""⟩

/-- The `user_cars` list of `on_car_action`'s take branch (src/bot.py line
874), also built identically in `take_car_menu` (line 379):
`[cp for cp, rec in last_action.items() if rec == "out" and
logs[list(last_action.keys()).index(cp)]["Driver Name"] == user]`.
Note the index used is the position of the plate among the dict keys, and
that position is used to index the SORTED LOG LIST, not the entries of that
plate. -/
def takeUserCars (rows : List Row) (user : String) : List String :=
  let logs := sortByTs rows
  let la := pyDict Row.plate Row.action logs
  (la.filter (fun kv =>
    kv.2 == "out" && ((logs.getD (keyIndex kv.1 la) padRow).driver == user))).map
    Prod.fst

/-- The take branch of `on_car_action` (src/bot.py lines 870-887): reject
with "You already have a car" if `user_cars` is non-empty (reporting its
first element), reject with "already in use" if the last action dict maps
the normalized plate to "out", otherwise append one `(ts, user, plate,
"out")` row and succeed with the display timestamp.  Returns the result
together with the list of rows appended to the ledger. -/
def takeAction (rows : List Row) (user : String) (ts : Nat) (plate : String) :
    ActionResult × List Row :=
  let logs := sortByTs rows
  let la := pyDict Row.plate Row.action logs
  match takeUserCars rows user with
  | c :: _ => (ActionResult.alreadyHolding c, [])
  | [] =>
    if alookup (normalizePlate plate) la = some "out" then
      (ActionResult.vehicleUnavailable, [])
    else
      (ActionResult.tookOk ts, [⟨ts, user, plate, "out"⟩])

/-- `on_car_action` (src/bot.py lines 857-912): dispatch on the callback
action.  The "take" branch validates; the else branch (callback "return")
unconditionally appends one `(ts, user, plate, "in")` row — there is no
holder check anywhere in it. -/
def onCarAction (rows : List Row) (action user plate : String) (ts : Nat) :
    ActionResult × List Row :=
  if action = "take" then takeAction rows user ts plate
  else (ActionResult.returnedOk ts, [⟨ts, user, plate, "in"⟩])

/-! ## handle_access_request (src/bot.py lines 530-558) -/

/-- An admin decision on an access request. -/
inductive Decision
  | approve
  | reject
  | snooze
deriving DecidableEq, Repr

/-- What the handler does besides mutating the Drivers sheet. -/
inductive DecisionOutcome
  | approvedMsg
  | rejectedMsg
  | snoozeMenu
  | requestAlreadyResolved
deriving DecidableEq, Repr

/-- `handle_access_request`: on "approve" it unconditionally runs
`sheet_drivers.append_row([user_name, str(user_id)])` and notifies; on
"reject" it only notifies; on "snooze" it shows the duration menu.  The
handler keeps no per-request state, so nothing ever yields
`DecisionOutcome.requestAlreadyResolved` (that constructor models the
spec's error and is unreachable in the code). -/
def handleAccessRequest (d : Decision) (userName userId : String)
    (drivers : List (String × String)) :
    List (String × String) × DecisionOutcome :=
  match d with
  | Decision.approve => (drivers ++ [(userName, userId)], DecisionOutcome.approvedMsg)
  | Decision.reject => (drivers, DecisionOutcome.rejectedMsg)
  | Decision.snooze => (drivers, DecisionOutcome.snoozeMenu)

/-! ## check_snoozed_requests (src/bot.py lines 914-937) -/

/-- A snoozed access request stored in `bot_data["snoozed_requests"]`. -/
structure SnoozedReq where
  userId : Nat
  userName : String
  remindTime : Nat
deriving DecidableEq, Repr

/-- Number of occurrences of a request in a list. -/
def countReq (r : SnoozedReq) : List SnoozedReq → Nat
  | [] => 0
  | s :: rest => (if s = r then 1 else 0) + countReq r rest

/-- One scheduler tick of `check_snoozed_requests`: iterate over a copy of
the snoozed list; every request with `now >= remind_time` is re-sent to the
admin chat (with the original approve/reject/snooze buttons) and removed
from the list; the rest stay.  Returns (requests still snoozed, requests
re-surfaced this tick, in order). -/
def checkSnoozed (now : Nat) : List SnoozedReq → List SnoozedReq × List SnoozedReq
  | [] => ([], [])
  | r :: rest =>
    let p := checkSnoozed now rest
    if r.remindTime ≤ now then (p.1, r :: p.2) else (r :: p.1, p.2)

/-! ## retry_gsheet_operation (src/bot.py lines 152-173) -/

/-- What one invocation of the wrapped coroutine does. -/
inductive CallOutcome
  | ok (v : Nat)
  | apiError
  | otherError
deriving DecidableEq, Repr

/-- Result of running the retry wrapper: success with the attempt number
that succeeded and the list of backoff sleeps performed (in order), or the
error re-raised to the caller (again with the sleeps performed), or the
unreachable `return None` after the loop. -/
inductive RetryResult
  | success (v : Nat) (attempt : Nat) (delays : List Nat)
  | raisedApi (delays : List Nat)
  | raisedOther (delays : List Nat)
  | exhausted (delays : List Nat)
deriving DecidableEq, Repr

/-- The `while attempt <= max_attempts` loop of `retry_gsheet_operation`:
try the call; on `gspread.exceptions.APIError` re-raise if this was the
last attempt, else sleep `backoff_factor ** attempt` and retry with
`attempt + 1`; on any other exception re-raise immediately.  `fuel` bounds
the recursion; `retryRun` supplies enough fuel that it never runs out. -/
def retryGo (maxAttempts factor : Nat) (b : Nat → CallOutcome) :
    Nat → List Nat → Nat → RetryResult
  | _, acc, 0 => RetryResult.exhausted acc.reverse
  | attempt, acc, fuel + 1 =>
    if attempt > maxAttempts then RetryResult.exhausted acc.reverse
    else
      match b attempt with
      | CallOutcome.ok v => RetryResult.success v attempt acc.reverse
      | CallOutcome.apiError =>
        if attempt = maxAttempts then RetryResult.raisedApi acc.reverse
        else retryGo maxAttempts factor b (attempt + 1) (factor ^ attempt :: acc) fuel
      | CallOutcome.otherError => RetryResult.raisedOther acc.reverse

/-- Run the retry wrapper from attempt 1 with no sleeps performed yet,
as the decorator does (defaults `max_attempts=3`, `backoff_factor=2`). -/
def retryRun (maxAttempts factor : Nat) (b : Nat → CallOutcome) : RetryResult :=
  retryGo maxAttempts factor b 1 [] (maxAttempts + 1)

/-! ## text_handler's add_car branch (src/bot.py lines 750-757) -/

/-- Result reported for an add-car submission. -/
inductive AddCarResult
  | plateExists
  | added
deriving DecidableEq, Repr

/-- The `add_car` branch of `text_handler`: normalize the submitted text
with `.strip().upper()`; compare it against every stored plate of the Cars
sheet column (skipping the header row) normalized the same way; if present
report that the plate already exists and change nothing, else append the
normalized plate to the Cars sheet and one `[plate, "", ""]` row to the
Maintenance sheet.  `cars` is the Cars column including its header cell,
`maint` the Maintenance rows. -/
def addCar (text : String) (cars : List String)
    (maint : List (String × String × String)) :
    AddCarResult × List String × List (String × String × String) :=
  let t := normalizePlate text
  let existing := (cars.drop 1).map normalizePlate
  if t ∈ existing then (AddCarResult.plateExists, cars, maint)
  else (AddCarResult.added, cars ++ [t], maint ++ [(t, "", "")])

/-! ## Spec-conformant skipping projection (for comparison, claim C8) -/

/-- Refinement comparison definition following the spec's words, NOT the
code: the spec's State Projector "must tolerate and skip malformed rows
(unknown action, empty plate) ... excluding them from the fold".  Same
sorted, normalized fold as `statusDict`, but with rows whose action is not
"out"/"in" or whose normalized plate is empty removed first. -/
def specSkipDict (rows : List Row) : List (String × String) :=
  pyDict (fun r => normalizePlate r.plate) Row.action
    ((sortByTs rows).filter
      (fun r => (r.action == "out" || r.action == "in")
        && !(normalizePlate r.plate == "")))

/-! ## Concrete ledgers used by the claim theorems -/

/-- Rows stored out of temporal order: the release (ts 2) arrived before the
acquire (ts 1).  Most recent by timestamp is the release, so V1 is free. -/
def outOfOrderRows : List Row :=
  [⟨2, "A", "V1", "in"⟩, ⟨1, "A", "V1", "out"⟩]

/-- A ledger in which C currently holds V2 (acquired at ts 4, no later
release), after B took and returned it, and A took V1 at ts 1.  The plates
first occur at sorted positions 0 and 1, while V2's holder is decided by the
row at position 3 — exactly the inputs on which the
`logs[list(last_action.keys()).index(cp)]` lookup goes wrong. -/
def doubleHoldRows : List Row :=
  [⟨1, "A", "V1", "out"⟩, ⟨2, "B", "V2", "out"⟩,
   ⟨3, "B", "V2", "in"⟩, ⟨4, "C", "V2", "out"⟩]

/-- The spec's concrete scenario between t1 and t2: only A's acquire of V1
has been recorded. -/
def scenarioPrefixRows : List Row := [⟨1, "A", "V1", "out"⟩]

/-- The spec's concrete scenario after t3:
(t1, A, V1, acquire), (t2, A, V1, release), (t3, B, V1, acquire). -/
def scenarioRows : List Row :=
  [⟨1, "A", "V1", "out"⟩, ⟨2, "A", "V1", "in"⟩, ⟨3, "B", "V1", "out"⟩]

/-- Two entries for V1 with the SAME timestamp and opposite actions,
in one storage order... -/
def tieRowsA : List Row := [⟨5, "A", "V1", "out"⟩, ⟨5, "B", "V1", "in"⟩]

/-- ...and in the other storage order. -/
def tieRowsB : List Row := [⟨5, "B", "V1", "in"⟩, ⟨5, "A", "V1", "out"⟩]

/-- Two entries with distinct timestamps, in one storage order... -/
def distinctRowsA : List Row := [⟨1, "A", "V1", "out"⟩, ⟨2, "B", "V2", "out"⟩]

/-- ...and permuted. -/
def distinctRowsB : List Row := [⟨2, "B", "V2", "out"⟩, ⟨1, "A", "V1", "out"⟩]

/-- A ledger with one well-formed acquire of V1 and one later malformed row
(unknown action "xyz") for the same plate. -/
def malformedRows : List Row :=
  [⟨1, "A", "V1", "out"⟩, ⟨2, "A", "V1", "xyz"⟩]

/-- A wrapped-call behavior that fails transiently on the first two
attempts and succeeds on the third. -/
def flakyTwice : Nat → CallOutcome :=
  fun n => if n ≤ 2 then CallOutcome.apiError else CallOutcome.ok 42

/-! ## Dictionary fold lemmas -/

theorem alookup_upsert (k k2 : String) (v : α) (d : List (String × α)) :
    alookup k2 (upsert k v d) = if k2 = k then some v else alookup k2 d := by
  induction d with
  | nil =>
    by_cases h : k2 = k
    · subst h
      simp [upsert, alookup]
    · simp [upsert, alookup, h, Ne.symm h]
  | cons kv rest ih =>
    by_cases h1 : kv.1 = k
    · rw [upsert, if_pos h1]
      by_cases h2 : k2 = k
      · subst h2
        simp [alookup]
      · simp [alookup, h1, h2, Ne.symm h2]
    · rw [upsert, if_neg h1]
      by_cases h3 : kv.1 = k2
      · have h4 : ¬ k2 = k := fun he => h1 (h3.trans he)
        simp [alookup, h3, h4]
      · simp [alookup, h3, ih]

theorem lastVal_foldl (f : Row → String) (g : Row → α) (k : String)
    (l : List Row) (a : Option α) :
    l.foldl (fun acc r => if f r = k then some (g r) else acc) a
      = orD (lastVal f g k l) a := by
  induction l generalizing a with
  | nil => simp [lastVal, orD]
  | cons r rest ih =>
    have hR : lastVal f g k (r :: rest)
        = orD (lastVal f g k rest) (if f r = k then some (g r) else none) := by
      simp only [lastVal, List.foldl_cons]
      exact ih _
    simp only [List.foldl_cons]
    rw [ih, hR]
    cases hX : lastVal f g k rest with
    | some v => simp [orD]
    | none => by_cases h : f r = k <;> simp [orD, h]

theorem alookup_foldUpsert (f : Row → String) (g : Row → α) (k : String)
    (l : List Row) (acc : List (String × α)) :
    alookup k (l.foldl (fun a r => upsert (f r) (g r) a) acc)
      = orD (lastVal f g k l) (alookup k acc) := by
  induction l generalizing acc with
  | nil => simp [lastVal, orD]
  | cons r rest ih =>
    have hR : lastVal f g k (r :: rest)
        = orD (lastVal f g k rest) (if f r = k then some (g r) else none) := by
      simp only [lastVal, List.foldl_cons]
      exact lastVal_foldl f g k rest _
    simp only [List.foldl_cons]
    rw [ih, alookup_upsert, hR]
    cases hX : lastVal f g k rest with
    | some v => simp [orD]
    | none =>
      by_cases h : f r = k
      · simp [orD, h]
      · simp [orD, h, Ne.symm h]

/-- Looking a key up in the dict built from rows returns the value of the
last matching row: later rows overwrite earlier ones. -/
theorem alookup_pyDict (f : Row → String) (g : Row → α) (k : String)
    (l : List Row) :
    alookup k (pyDict f g l) = lastVal f g k l := by
  rw [pyDict, alookup_foldUpsert]
  cases h : lastVal f g k l <;> simp [orD, alookup]

/-! ## Sorting lemmas -/

theorem pairwise_tsLt_of_le_of_ne (s : List Row)
    (h1 : List.Pairwise tsLe s)
    (h2 : List.Pairwise (fun a b => a.ts ≠ b.ts) s) :
    List.Pairwise tsLt s := by
  induction s with
  | nil => exact List.Pairwise.nil
  | cons x rest ih =>
    rcases List.pairwise_cons.mp h1 with ⟨hx1, hr1⟩
    rcases List.pairwise_cons.mp h2 with ⟨hx2, hr2⟩
    exact List.pairwise_cons.mpr
      ⟨fun b hb => Nat.lt_of_le_of_ne (hx1 b hb) (hx2 b hb), ih hr1 hr2⟩

theorem sortByTs_sorted_lt (l : List Row) (hnd : (l.map Row.ts).Nodup) :
    List.Pairwise tsLt (sortByTs l) := by
  have hperm : (sortByTs l).Perm l := List.perm_insertionSort tsLe l
  have hnd2 : ((sortByTs l).map Row.ts).Nodup :=
    ((hperm.map Row.ts).nodup_iff).mpr hnd
  have hne : (sortByTs l).Pairwise (fun a b => a.ts ≠ b.ts) := by
    rw [List.Nodup, List.pairwise_map] at hnd2
    exact hnd2
  exact pairwise_tsLt_of_le_of_ne _ (List.sorted_insertionSort tsLe l) hne

/-- With pairwise-distinct timestamps, any two permutations of the same
rows sort to the same list. -/
theorem sortByTs_eq_of_perm (l1 l2 : List Row) (hp : l1.Perm l2)
    (hn : (l1.map Row.ts).Nodup) : sortByTs l1 = sortByTs l2 := by
  have hn2 : (l2.map Row.ts).Nodup := ((hp.map Row.ts).nodup_iff).mp hn
  exact List.eq_of_perm_of_sorted
    (((List.perm_insertionSort tsLe l1).trans hp).trans
      (List.perm_insertionSort tsLe l2).symm)
    (sortByTs_sorted_lt l1 hn) (sortByTs_sorted_lt l2 hn2)

/-! ## Snooze tick lemmas -/

theorem checkSnoozed_sent_count (now : Nat) (s : List SnoozedReq)
    (r : SnoozedReq) :
    countReq r (checkSnoozed now s).2
      = if r.remindTime ≤ now then countReq r s else 0 := by
  induction s with
  | nil => simp [checkSnoozed, countReq]
  | cons x rest ih =>
    by_cases hx : x.remindTime ≤ now
    · by_cases hxr : x = r
      · subst hxr
        simp [checkSnoozed, hx, countReq, ih]
      · simp [checkSnoozed, hx, countReq, hxr, ih]
    · by_cases hr : r.remindTime ≤ now
      · have hxr : ¬ x = r := fun he => hx (he ▸ hr)
        simp [checkSnoozed, hx, countReq, hxr, ih, hr]
      · simp [checkSnoozed, hx, countReq, ih, hr]

theorem checkSnoozed_kept_count (now : Nat) (s : List SnoozedReq)
    (r : SnoozedReq) :
    countReq r (checkSnoozed now s).1
      = if r.remindTime ≤ now then 0 else countReq r s := by
  induction s with
  | nil => simp [checkSnoozed, countReq]
  | cons x rest ih =>
    by_cases hx : x.remindTime ≤ now
    · by_cases hr : r.remindTime ≤ now
      · simp [checkSnoozed, hx, ih, hr]
      · have hxr : ¬ x = r := fun he => hr (he ▸ hx)
        simp [checkSnoozed, hx, countReq, hxr, ih, hr]
    · by_cases hxr : x = r
      · subst hxr
        simp [checkSnoozed, hx, countReq, ih]
      · simp [checkSnoozed, hx, countReq, hxr, ih]

/-! ## Claim theorems -/

/-- C1, counterexample: with an empty ledger nobody is the projected holder
of V1, yet a release command by A succeeds (`returnedOk`, not the spec's
`NotHolder`) and appends one release entry — the claim's "fails with
NotHolder and appends no entry" is false on the code. -/
theorem C1_release_by_non_holder_appends :
    mostRecentHolder ([] : List Row) "V1" = none
    ∧ onCarAction [] "return" "A" "V1" 5
        = (ActionResult.returnedOk 5, [⟨5, "A", "V1", "in"⟩])
    ∧ ((onCarAction [] "return" "A" "V1" 5).1 == ActionResult.notHolder)
        = false := by
  decide

/-- C1, amended: `on_car_action`'s release branch performs no holder check
at all — for every ledger and every actor it appends exactly one release
entry and reports success; non-holders are only filtered out upstream by
`return_car_menu`, which offers return buttons solely for cars whose
last-by-storage-order entry is an acquire by that actor. -/
theorem C1_release_always_appends_one (rows : List Row)
    (user plate : String) (ts : Nat) :
    onCarAction rows "return" user plate ts
      = (ActionResult.returnedOk ts, [⟨ts, user, plate, "in"⟩]) := by
  have h : ¬ ("return" : String) = "take" := by decide
  simp [onCarAction, h]

/-- C2: `status_menu` sorts by timestamp before folding, so on the
out-of-order ledger it projects V1 as available (most recent entry, ts 2,
is the release), but `return_car_menu` folds the rows in storage order
without re-sorting and still offers V1 as held by A — contradicting the
claim that every projecting operation re-sorts so that the state equals the
most-recent-by-timestamp entry. -/
theorem C2_return_menu_does_not_sort :
    mostRecentAction outOfOrderRows "V1" = some "in"
    ∧ statusState outOfOrderRows "V1" = "in"
    ∧ statusHeld outOfOrderRows "V1" = false
    ∧ returnUserCars outOfOrderRows "A" = ["V1"] := by
  decide

/-- C3: in `doubleHoldRows` the projected holder of V2 is C (acquire at
ts 4 with no later release), yet C's take of the free car V3 passes the
"already have a car" guard (which reads the driver from the row at the
plate's key index instead of the plate's latest row) and appends a second
acquire — C ends up holding two vehicles, contradicting the claim. -/
theorem C3_already_holding_guard_broken :
    mostRecentAction doubleHoldRows "V2" = some "out"
    ∧ mostRecentHolder doubleHoldRows "V2" = some "C"
    ∧ takeAction doubleHoldRows "C" 9 "V3"
        = (ActionResult.tookOk 9, [⟨9, "C", "V3", "out"⟩]) := by
  decide

/-- C4, counterexample: in the spec's own scenario between t1 and t2 the
projected state of V1 is held (by A), but `acquire(A, V1)` fails with
`alreadyHolding "V1"`, not `vehicleUnavailable` — the already-holding guard
runs first and flags A. -/
theorem C4_scenario_fails_with_already_holding :
    mostRecentAction scenarioPrefixRows "V1" = some "out"
    ∧ mostRecentHolder scenarioPrefixRows "V1" = some "A"
    ∧ takeAction scenarioPrefixRows "A" 5 "V1"
        = (ActionResult.alreadyHolding "V1", [])
    ∧ ((takeAction scenarioPrefixRows "A" 5 "V1").1
        == ActionResult.vehicleUnavailable) = false := by
  decide

/-- C4, amended: when the actor's already-holding guard does not fire, an
acquire of a vehicle whose most-recent-by-timestamp entry is an acquire
fails with `vehicleUnavailable` and appends nothing, and an acquire of any
other vehicle appends exactly one acquire entry and succeeds with the
display timestamp. -/
theorem C4_take_validates_when_guard_clear (rows : List Row) (user : String)
    (ts : Nat) (plate : String)
    (hguard : takeUserCars rows user = []) :
    (mostRecentAction rows plate = some "out" →
        takeAction rows user ts plate = (ActionResult.vehicleUnavailable, []))
    ∧ (mostRecentAction rows plate ≠ some "out" →
        takeAction rows user ts plate
          = (ActionResult.tookOk ts, [⟨ts, user, plate, "out"⟩])) := by
  have hla : alookup (normalizePlate plate)
      (pyDict Row.plate Row.action (sortByTs rows))
        = mostRecentAction rows plate := by
    rw [alookup_pyDict]
    rfl
  constructor <;> intro h <;>
    simp only [takeAction, hguard, hla] <;> simp [h]

/-- C4, witness: in the spec's scenario after t3, a third actor C passes
the guard and `acquire(C, V1)` fails with `vehicleUnavailable` (V1 is held
by B) while `acquire(C, V3)` succeeds and appends one acquire entry. -/
theorem C4_take_validates_witness :
    takeUserCars scenarioRows "C" = []
    ∧ takeAction scenarioRows "C" 9 "V1" = (ActionResult.vehicleUnavailable, [])
    ∧ takeAction scenarioRows "C" 9 "V3"
        = (ActionResult.tookOk 9, [⟨9, "C", "V3", "out"⟩]) :=
  ⟨by decide,
   (C4_take_validates_when_guard_clear scenarioRows "C" 9 "V1" (by decide)).1
     (by decide),
   (C4_take_validates_when_guard_clear scenarioRows "C" 9 "V3" (by decide)).2
     (by decide)⟩

/-- C5, counterexample: `tieRowsB` is a permutation of `tieRowsA` (same two
entries, identical timestamp 5), yet the projected state of V1 differs:
"in" for one storage order, "out" for the other — the stable sort breaks
the tie by storage order, so projection is NOT permutation-invariant when
timestamps collide. -/
theorem C5_tie_permutation_changes_state :
    tieRowsA.Perm tieRowsB
    ∧ statusState tieRowsA "V1" = "in"
    ∧ statusState tieRowsB "V1" = "out" :=
  ⟨List.Perm.swap _ _ _, by decide, by decide⟩

/-- C5, amended: when the entries' timestamps are pairwise distinct,
projecting any permutation of the same entries yields the same sorted
ledger and hence the same possession state for every car. -/
theorem C5_projection_perm_invariant (l1 l2 : List Row) (hp : l1.Perm l2)
    (hn : (l1.map Row.ts).Nodup) :
    sortByTs l1 = sortByTs l2
    ∧ ∀ car : String, statusState l1 car = statusState l2 car := by
  have he : sortByTs l1 = sortByTs l2 := sortByTs_eq_of_perm l1 l2 hp hn
  exact ⟨he, fun car => by simp [statusState, statusDict, he]⟩

/-- C5, witness: on two concrete permutations with distinct timestamps the
sorted ledgers coincide and V1 projects identically. -/
theorem C5_projection_perm_witness :
    sortByTs distinctRowsA = sortByTs distinctRowsB
    ∧ statusState distinctRowsA "V1" = statusState distinctRowsB "V1" :=
  ⟨(C5_projection_perm_invariant distinctRowsA distinctRowsB
      (List.Perm.swap _ _ _) (by decide)).1,
   (C5_projection_perm_invariant distinctRowsA distinctRowsB
      (List.Perm.swap _ _ _) (by decide)).2 "V1"⟩

/-- C6: with the default configuration (3 attempts, backoff factor 2,
sleeps factor^attempt = 2 then 4), the wrapper retries exactly the
transient `APIError` class: failing twice then succeeding yields success on
the 3rd attempt with delays [2, 4]; any other error propagates immediately
without a retry (no delays if on the first call, after one delay if the
first call was transient); three transient failures exhaust the attempts
and re-raise the final failure to the caller after delays [2, 4]. -/
theorem C6_retry_shell (b : Nat → CallOutcome) (v : Nat) :
    (b 1 = CallOutcome.apiError → b 2 = CallOutcome.apiError →
      b 3 = CallOutcome.ok v →
        retryRun 3 2 b = RetryResult.success v 3 [2, 4])
    ∧ (b 1 = CallOutcome.otherError →
        retryRun 3 2 b = RetryResult.raisedOther [])
    ∧ (b 1 = CallOutcome.apiError → b 2 = CallOutcome.otherError →
        retryRun 3 2 b = RetryResult.raisedOther [2])
    ∧ (b 1 = CallOutcome.apiError → b 2 = CallOutcome.apiError →
        b 3 = CallOutcome.apiError →
          retryRun 3 2 b = RetryResult.raisedApi [2, 4]) := by
  refine ⟨fun h1 h2 h3 => ?_, fun h1 => ?_, fun h1 h2 => ?_,
    fun h1 h2 h3 => ?_⟩
  · simp [retryRun, retryGo, h1, h2, h3]
  · simp [retryRun, retryGo, h1]
  · simp [retryRun, retryGo, h1, h2]
  · simp [retryRun, retryGo, h1, h2, h3]

/-- C6, witness: a behavior failing transiently twice then succeeding runs
to success on the 3rd attempt with backoff delays 2 and 4. -/
theorem C6_retry_shell_witness :
    retryRun 3 2 flakyTwice = RetryResult.success 42 3 [2, 4] :=
  (C6_retry_shell flakyTwice 42).1 (by decide) (by decide) (by decide)

/-- C7, counterexample: two approve decisions on the same pending request
each append an Actor row — the Drivers sheet ends with the requester twice,
and no decision (second approve, or a reject after an approve) ever fails
with the spec's `RequestAlreadyResolved`. -/
theorem C7_double_decision_duplicates_actor :
    handleAccessRequest Decision.approve "N" "7" []
      = ([("N", "7")], DecisionOutcome.approvedMsg)
    ∧ handleAccessRequest Decision.approve "N" "7" [("N", "7")]
      = ([("N", "7"), ("N", "7")], DecisionOutcome.approvedMsg)
    ∧ ((handleAccessRequest Decision.approve "N" "7" [("N", "7")]).2
        == DecisionOutcome.requestAlreadyResolved) = false
    ∧ ((handleAccessRequest Decision.reject "N" "7" [("N", "7")]).2
        == DecisionOutcome.requestAlreadyResolved) = false := by
  decide

/-- C7, amended: `handle_access_request` keeps no per-request state: every
approve unconditionally appends one Actor row and notifies, every reject
and snooze leaves the Actor store unchanged, and no decision ever fails
with `RequestAlreadyResolved`; hence two decisions on the same request
produce two independent effects (two approvals create a duplicate Actor). -/
theorem C7_decisions_are_stateless (name uid : String)
    (drivers : List (String × String)) :
    handleAccessRequest Decision.approve name uid drivers
      = (drivers ++ [(name, uid)], DecisionOutcome.approvedMsg)
    ∧ handleAccessRequest Decision.reject name uid drivers
      = (drivers, DecisionOutcome.rejectedMsg)
    ∧ handleAccessRequest Decision.snooze name uid drivers
      = (drivers, DecisionOutcome.snoozeMenu) :=
  ⟨rfl, rfl, rfl⟩

/-- C8, counterexample: with a malformed row (unknown action "xyz", ts 2)
after a valid acquire (ts 1), `status_menu`'s fold does NOT skip the bad
row: it overwrites V1's state with "xyz" (so V1 renders as available),
whereas the spec-conformant fold that excludes malformed rows still has V1
held ("out") — the malformed row is folded in, not excluded. -/
theorem C8_malformed_row_not_skipped :
    statusState malformedRows "V1" = "xyz"
    ∧ statusHeld malformedRows "V1" = false
    ∧ alookup "V1" (specSkipDict malformedRows) = some "out" := by
  decide

/-- C8, amended: the projection folds EVERY row without validation — for
any ledger the state of a car is the action string of its
most-recent-by-timestamp row whatever that string is (defaulting to
"✅ Available" when no row matches); a malformed action is carried into the
state (and then renders as not-held, since only "out" means held) rather
than being excluded; the pure fold itself never fails. -/
theorem C8_projection_folds_all_rows (rows : List Row) (car : String) :
    statusState rows car
      = (lastVal (fun r => normalizePlate r.plate) Row.action
          (normalizePlate car) (sortByTs rows)).getD "✅ Available"
    ∧ statusHeld rows car
      = ((lastVal (fun r => normalizePlate r.plate) Row.action
          (normalizePlate car) (sortByTs rows)).getD "✅ Available"
            == "out") := by
  constructor
  · simp [statusState, statusDict, alookup_pyDict]
  · simp [statusHeld, statusState, statusDict, alookup_pyDict]

/-- C9: one scheduler tick re-surfaces a snoozed request exactly when
`now ≥ remind_time` — every due copy is re-sent and removed from the
snoozed list, a not-yet-due request is never sent and stays; and on a later
tick (the second equation applied to the kept list) an already-resurfaced
request is not sent again. -/
theorem C9_snooze_resurfaces_once (now now2 : Nat) (s : List SnoozedReq)
    (r : SnoozedReq) :
    countReq r (checkSnoozed now s).2
      = (if r.remindTime ≤ now then countReq r s else 0)
    ∧ countReq r (checkSnoozed now s).1
      = (if r.remindTime ≤ now then 0 else countReq r s)
    ∧ countReq r (checkSnoozed now2 (checkSnoozed now s).1).2
      = (if r.remindTime ≤ now2 then
          (if r.remindTime ≤ now then 0 else countReq r s) else 0) := by
  refine ⟨checkSnoozed_sent_count now s r, checkSnoozed_kept_count now s r, ?_⟩
  rw [checkSnoozed_sent_count, checkSnoozed_kept_count]

/-- C10: the add-car branch normalizes the submitted plate (strip then
uppercase), reports an existing plate (comparing against the stored plates
normalized the same way, header row skipped) while appending nothing to
either sheet, and otherwise appends the normalized plate to the Cars sheet
and one blank maintenance row. -/
theorem C10_add_car_normalizes_and_dedupes (text : String)
    (cars : List String) (maint : List (String × String × String)) :
    (normalizePlate text ∈ (cars.drop 1).map normalizePlate →
      addCar text cars maint = (AddCarResult.plateExists, cars, maint))
    ∧ (normalizePlate text ∉ (cars.drop 1).map normalizePlate →
      addCar text cars maint
        = (AddCarResult.added, cars ++ [normalizePlate text],
            maint ++ [(normalizePlate text, "", "")])) := by
  constructor <;> intro h
  · simp only [addCar]
    rw [if_pos h]
  · simp only [addCar]
    rw [if_neg h]

/-- C10, witness: with stored plates ["Car Plate" (header), "AB 1"],
submitting " ab 1 " reports a duplicate and changes nothing, while "xy 9"
is appended (normalized) to both sheets. -/
theorem C10_add_car_witness :
    addCar " ab 1 " ["Car Plate", "AB 1"] []
      = (AddCarResult.plateExists, ["Car Plate", "AB 1"], [])
    ∧ addCar "xy 9" ["Car Plate", "AB 1"] []
      = (AddCarResult.added, ["Car Plate", "AB 1", "XY 9"],
          [("XY 9", "", "")]) :=
  ⟨(C10_add_car_normalizes_and_dedupes " ab 1 " ["Car Plate", "AB 1"] []).1
     (by decide),
   (C10_add_car_normalizes_and_dedupes "xy 9" ["Car Plate", "AB 1"] []).2
     (by decide)⟩

end CarBot
